import Mathlib

/-!
Verification of the concurrent command-execution and atomic-update core of
the DeepDomain repository (`src/utils/atomic_ops.py` and `src/utils/tui.py`).

The Python source is shallowly embedded: file contents are strings, the
filesystem is a partial map from path strings to contents, stateful
operations are explicit state-passing functions, and the concurrent parts
(semaphore admission, the per-path lock, the running-process registry) are
small step/transition systems whose steps mirror the statements of the
source functions.
-/

set_option autoImplicit false

namespace DeepDomain

/-! ### Filesystem model

A filesystem maps path strings to `Option String`: `none` means the path
does not exist, `some c` means a file with contents `c`. -/

/-- A flat filesystem: path name to optional file contents. -/
abbrev FS := String → Option String

/-- Point update of a filesystem (`none` deletes the entry). -/
def fsSet (fs : FS) (p : String) (v : Option String) : FS :=
  fun q => if q = p then v else fs q

/-! ### AtomicFileWriter (`src/utils/atomic_ops.py`, lines 17-92) -/

/-- Name of the temporary file `tempfile.NamedTemporaryFile` creates for a
target path: same directory, name of the form `.{file_path.name}.XXXX`
(`atomic_ops.py` line 44).  The exact random suffix is irrelevant; what
matters is that it is a fresh name distinct from the target path. -/
def tempName (p : String) : String := "." ++ p ++ ".tmp0"

/-- Fault injected into one `atomic_write` call: either the call runs to
completion, or the temporary-file stage (creation / `write` / `flush` /
`fsync`, lines 39-48) fails after writing `fragment` of the content, so
the final `os.replace` (line 52) is never executed and the error
propagates. -/
inductive WriteFault where
  | ok : WriteFault
  | failBeforeRename (fragment : String) : WriteFault

/-- Result of an `atomic_write` call: whether an exception propagated to
the caller, and the filesystem afterwards. -/
structure WriteResult where
  err : Bool
  fs : FS

/-- `AtomicFileWriter.atomic_write` (`atomic_ops.py` lines 32-52): write
`content` to a fresh temporary file in the target directory, flush and
fsync it, then atomically rename it onto `file_path` with `os.replace`.
Under `WriteFault.failBeforeRename fragment` the temporary file holds only
`fragment` when the error is raised, and nothing else has happened. -/
def atomic_write (fs : FS) (file_path content : String) (fault : WriteFault) :
    WriteResult :=
  match fault with
  | .failBeforeRename fragment =>
      -- lines 39-48 fail mid-way: only the temporary file was touched
      { err := true, fs := fsSet fs (tempName file_path) (some fragment) }
  | .ok =>
      -- lines 39-49: temporary file fully written
      let fs1 := fsSet fs (tempName file_path) (some content)
      -- line 52: `os.replace(temp_path, file_path)`
      let fs2 := fsSet fs1 (tempName file_path) none
      { err := false, fs := fsSet fs2 file_path (some content) }

/-- Python's `content.endswith('\n')` (`atomic_ops.py` line 70): the
last character is a newline. -/
def endswithNewline (s : String) : Bool := s.data.getLast? == some '\n'

/-- The combined content computed by `AtomicFileWriter.atomic_append`
(`atomic_ops.py` lines 60-71): existing content plus new content, with a
trailing newline added when `content` is nonempty and does not already
end in one. -/
def combineAppend (existing content : String) : String :=
  let combined := existing ++ content
  if content ≠ "" ∧ endswithNewline content = false then combined ++ "\n"
  else combined

/-! #### `atomic_append` and the per-path lock (`atomic_ops.py`,
lines 25-30 and 54-73)

`AtomicFileWriter._get_lock` returns one `threading.Lock` per path, and
`threading.Lock` is not reentrant.  `atomic_append` enters
`with self._get_lock(file_path)` (line 59) and then calls
`self.atomic_write(...)` (line 73), whose body re-acquires the same
path's lock (line 37) while the calling thread still holds it.  The
call is therefore modelled as a micro-step machine over the path's lock
state, with every acquire step disabled while the lock is held — by
anyone, the acquiring thread included, which is what non-reentrancy
means. -/

/-- State of one `atomic_append(file_path, content)` call: the file at
`file_path`, whether the path's lock is held, the call's program
counter, and the existing content read so far.  Program counter: 0 =
before the outer acquire (line 59), 1 = before the read (lines 61-66),
2 = before `atomic_write`'s nested acquire of the same lock (line 37),
3 = before the temp-write-fsync-rename (lines 39-52), 4 = before the
`with` blocks exit, 5 = done. -/
structure AppendState where
  file : Option String
  locked : Bool
  pc : Nat
  readVal : String

/-- One micro-step of an `atomic_append(file_path, content)` call;
`none` when the call can make no step because it is blocked on the
lock. -/
def atomic_append_step (content : String) (s : AppendState) :
    Option AppendState :=
  if s.pc = 0 then
    -- line 59: `with self._get_lock(file_path)`
    if s.locked then none
    else some { s with locked := true, pc := 1 }
  else if s.pc = 1 then
    -- lines 61-66: read the existing content, empty if absent
    some { s with readVal := (s.file).getD "", pc := 2 }
  else if s.pc = 2 then
    -- line 37: `atomic_write` acquires the same non-reentrant lock
    if s.locked then none
    else some { s with locked := true, pc := 3 }
  else if s.pc = 3 then
    -- lines 39-52, writing the combined content of lines 69-71
    some { s with file := some (combineAppend s.readVal content), pc := 4 }
  else if s.pc = 4 then
    -- the `with` blocks exit
    some { s with locked := false, pc := 5 }
  else none

/-- Run `n` micro-steps of one `atomic_append` call; `none` when the
call blocked before completing them. -/
def atomic_append_run (content : String) (s : AppendState) :
    Nat → Option AppendState
  | 0 => some s
  | n + 1 =>
      match atomic_append_step content s with
      | none => none
      | some s2 => atomic_append_run content s2 n

/-- A fresh `atomic_append` call over a path holding `old` (absent when
`none`), with the path's lock free. -/
def atomic_append_init (old : Option String) : AppendState :=
  { file := old, locked := false, pc := 0, readVal := "" }

/-- Chunk size of the streaming loop (`atomic_ops.py` line 89). -/
def chunkSize : Nat := 65536

/-- The chunk loop of `streaming_write` (`atomic_ops.py` lines 89-92):
`for i in range(0, len(content), 65536): fh.write(content[i:i+65536])`,
writing onto a file opened in append mode.  Fuel-indexed so it computes
by `rfl`; `content.length` fuel always suffices. -/
def writeChunksAux : Nat → List Char → List Char → List Char
  | 0, file, _ => file
  | _ + 1, file, [] => file
  | fuel + 1, file, c :: cs =>
      writeChunksAux fuel (file ++ (c :: cs).take chunkSize)
        ((c :: cs).drop chunkSize)

/-- The chunked append of `streaming_write` on character lists. -/
def writeChunks (file content : List Char) : List Char :=
  writeChunksAux content.length file content

/-- `AtomicFileWriter.streaming_write` (`atomic_ops.py` lines 75-92):
content no longer than `max_memory_size` (constructor default 1 MiB) goes
through `atomic_write`; larger content is written in 64 KiB chunks to the
target opened with `file_path.open("a", ...)` — append mode — under the
path lock. -/
def streaming_write (max_memory_size : Nat) (fs : FS) (file_path content : String) :
    FS :=
  if content.length ≤ max_memory_size then
    (atomic_write fs file_path content .ok).fs
  else
    let existing := (fs file_path).getD ""
    fsSet fs file_path (some (String.mk (writeChunks existing.data content.data)))

/-! ### AsyncCommandRunner (`src/utils/atomic_ops.py`, lines 95-179)

`run_command_async` spawns the command with
`asyncio.create_subprocess_shell(command, ..., text=True)` and then reads
both streams line by line.  The OS-level outcome of the spawn is a
parameter of the embedding (`Except String ProcBehavior`: either an
exception text or the behaviour of the spawned shell process); the
argument validation that CPython's event loop performs on the keyword
arguments is embedded explicitly, because the source passes `text=True`. -/

/-- Observable behaviour of a spawned shell process: the raw lines its
two pipes deliver, and its exit code. -/
structure ProcBehavior where
  stdoutLines : List String
  stderrLines : List String
  exitCode : Int

/-- Python's whitespace test used by `str.strip()` (ASCII portion). -/
def pyWhitespace (c : Char) : Bool :=
  c = ' ' ∨ c = '\t' ∨ c = '\n' ∨ c = '\r' ∨ c = '\x0b' ∨ c = '\x0c'

/-- Python's `str.strip()` with no argument: remove leading and trailing
whitespace (`atomic_ops.py` line 143). -/
def pyStrip (s : String) : String :=
  String.mk (((s.data.dropWhile pyWhitespace).reverse.dropWhile pyWhitespace).reverse)

/-- The `read_stream` inner coroutine (`atomic_ops.py` lines 138-150):
each line is stripped; empty results are dropped; the rest are
accumulated in order (and forwarded to the callback, which does not
affect the returned tuple). -/
def read_stream (lines : List String) : List String :=
  (lines.map pyStrip).filter (fun l => l ≠ "")

/-- Argument validation of CPython's `BaseEventLoop.subprocess_shell`,
which `asyncio.create_subprocess_shell` calls: a truthy `text` keyword is
rejected with `ValueError("text must be False")` before any process is
started; otherwise the OS-level spawn outcome is returned. -/
def create_subprocess_shell (text : Bool) (osOutcome : Except String ProcBehavior) :
    Except String ProcBehavior :=
  if text then .error "text must be False" else osOutcome

set_option linter.unusedVariables false in
/-- Body of `AsyncCommandRunner.run_command_async` inside the admission
semaphore (`atomic_ops.py` lines 118-169), as a function of the spawn
outcome: on a spawn exception `e` the `except` clause (lines 168-169)
returns `("", str(e), 1)`; otherwise both streams are read through
`read_stream`, joined with newlines, and returned with the process's own
exit code (lines 134-166).  The `timeout` parameter is the one accepted
at line 111. -/
def run_command_async_core (spawn : Except String ProcBehavior)
    (timeout : Option Nat) : String × String × Int :=
  match spawn with
  | .error e => ("", e, 1)
  | .ok p =>
      (String.intercalate "\n" (read_stream p.stdoutLines),
       String.intercalate "\n" (read_stream p.stderrLines),
       p.exitCode)

/-- `AsyncCommandRunner.run_command_async` (`atomic_ops.py` lines
105-169): the source passes `text=True` to `create_subprocess_shell`
(line 125), so the spawn outcome first goes through the event loop's
keyword validation. -/
def run_command_async (osOutcome : Except String ProcBehavior)
    (timeout : Option Nat) : String × String × Int :=
  run_command_async_core (create_subprocess_shell true osOutcome) timeout

/-- Modelled from the spec: the OS-level behaviour of `sh -c "echo hi"`
(an external program, not part of this repository) — one stdout line
`"hi\n"`, no stderr, exit code 0. -/
def echoHiBehavior : Except String ProcBehavior :=
  .ok { stdoutLines := ["hi\n"], stderrLines := [], exitCode := 0 }

/-- Default of the `max_concurrent` constructor argument of
`AsyncCommandRunner` (`atomic_ops.py` line 98). -/
def default_max_concurrent : Nat := 8

/-! ### StatusPanel.add_status_message (`src/utils/tui.py`, lines 75-96) -/

/-- The formatted message `add_status_message` builds (`tui.py` lines
77-93): a dimmed timestamp, a colour-coded icon chosen by `msg_type`, and
the message text. -/
def formatStatusMessage (timestamp message msg_type : String) : String :=
  let icon_color : String × String :=
    if msg_type = "success" then ("✓", "green")
    else if msg_type = "info" then ("ℹ", "cyan")
    else if msg_type = "warning" then ("⚠", "yellow")
    else ("✗", "red")
  "[dim]" ++ timestamp ++ "[/dim] [" ++ icon_color.2 ++ "]" ++ icon_color.1 ++
    "[/" ++ icon_color.2 ++ "] " ++ message

/-- `StatusPanel.add_status_message` (`tui.py` lines 75-96): the reactive
list is replaced by itself plus the new formatted message
(`self.status_messages = self.status_messages + [formatted_msg]`,
line 96).  No truncation is performed anywhere. -/
def add_status_message (log : List String) (timestamp message msg_type : String) :
    List String :=
  log ++ [formatStatusMessage timestamp message msg_type]

/-- A sequence of `add_status_message` calls, oldest first. -/
def addStatusMessages (log : List String)
    (calls : List (String × String × String)) : List String :=
  calls.foldl (fun l c => add_status_message l c.1 c.2.1 c.2.2) log

/-! ### ThreadSafeTUIWrapper.run_command_live (`src/utils/tui.py`,
lines 531-657)

The bridge's streaming runner: it schedules a command-start event onto
the UI loop, spawns the process with `subprocess.Popen`, polls the two
reader queues scheduling one command-output event per line, kills the
process if the 300 s wall-clock cap expires, drains the leftover lines
(collected into the return value only, lines 627-639), and finally
schedules the command-finished event (lines 642-646).  The `except`
clause (lines 650-657) schedules an error status message and returns
`("", str(e), 1)`.  Events are only scheduled when a running UI loop was
resolved. -/

/-- An event scheduled onto the UI's event loop by the bridge. -/
inductive UIEvent where
  | commandStart (command : String)
  | commandOutput (line : String)
  | commandFinish
  | statusMessage (text severity : String)
deriving DecidableEq

/-- Result of one `ThreadSafeTUIWrapper.run_command_live` call: the
events scheduled onto the UI loop, in order, and the returned
`(stdout, stderr, returncode)` tuple. -/
structure BridgeRun where
  events : List UIEvent
  result : String × String × Int

/-- Exit code of a process killed by `proc.kill()` (SIGKILL), as
reported by `Popen.returncode`: the negated signal number. -/
def killedReturnCode : Int := -9

/-- `ThreadSafeTUIWrapper.run_command_live` (`tui.py` lines 531-657) as a
function of: whether a running UI loop was resolved (lines 553, 510),
the spawn outcome of `subprocess.Popen` (line 561), and whether the 300 s
wall-clock cap expired before the process did (lines 584-624). -/
def run_command_live (loopRunning : Bool) (command : String)
    (spawn : Except String ProcBehavior) (timedOut : Bool) : BridgeRun :=
  -- lines 553-558: the start event is scheduled before Popen runs
  let startEvents := if loopRunning then [UIEvent.commandStart command] else []
  match spawn with
  | .error e =>
      -- lines 650-657: error status message, no finish event
      { events := startEvents ++
          (if loopRunning then
            [UIEvent.statusMessage ("Command error: " ++ e) "error"] else []),
        result := ("", e, 1) }
  | .ok p =>
      let outLines := read_stream p.stdoutLines
      let errLines := read_stream p.stderrLines
      -- lines 589-617: one output event per streamed line (stderr lines
      -- are wrapped in red ERROR markup)
      let streamEvents :=
        if loopRunning then
          outLines.map UIEvent.commandOutput ++
          errLines.map (fun l =>
            UIEvent.commandOutput ("[red]ERROR: " ++ l ++ "[/red]"))
        else []
      -- lines 642-646: exactly one finish event on this path
      let finishEvents := if loopRunning then [UIEvent.commandFinish] else []
      { events := startEvents ++ streamEvents ++ finishEvents,
        result := (String.intercalate "\n" outLines,
                   String.intercalate "\n" errLines,
                   if timedOut then killedReturnCode else p.exitCode) }

/-- Number of command-finished events in a scheduled-event list. -/
def countFinish (events : List UIEvent) : Nat :=
  events.countP (fun e => e = UIEvent.commandFinish)

/-! ### The admission semaphore (`src/utils/atomic_ops.py`, lines 98-117)

`run_command_async` wraps its whole body in `async with self.semaphore`
(line 117), an `asyncio.Semaphore(max_concurrent)` created at line 100.
Each concurrent call is a thread of the step system below: it must take a
token before it may spawn its process, and the token is given back when
the call completes (normally or through the `except` clause — the
`async with` releases on every exit path). -/

/-- Program counter of one `run_command_async` call: `0` waiting on the
semaphore, `1` admitted (token held, process not yet spawned), `2`
executing (process spawned, token held), `3` completed (token
released). -/
abbrev SemPc := Nat

/-- One scheduler step of the admission system, naming the call it
advances. -/
inductive SemAction where
  | acquire (i : Nat)
  | spawn (i : Nat)
  | complete (i : Nat)

/-- Global state: free tokens of the `asyncio.Semaphore`, and each
call's program counter. -/
structure SemState where
  tokens : Nat
  pcs : List SemPc

/-- Semantics of one step: `acquire` blocks (is disabled) while no token
is free; `spawn` requires the token already held; `complete` returns the
token.  `none` means the step is not enabled. -/
def semStep (s : SemState) (a : SemAction) : Option SemState :=
  match a with
  | .acquire i =>
      match s.pcs[i]? with
      | some 0 => if s.tokens = 0 then none
                  else some ⟨s.tokens - 1, s.pcs.set i 1⟩
      | _ => none
  | .spawn i =>
      match s.pcs[i]? with
      | some 1 => some ⟨s.tokens, s.pcs.set i 2⟩
      | _ => none
  | .complete i =>
      match s.pcs[i]? with
      | some 2 => some ⟨s.tokens + 1, s.pcs.set i 3⟩
      | _ => none

/-- Run a sequence of scheduler steps; `none` if any step is disabled. -/
def semRun (s : SemState) : List SemAction → Option SemState
  | [] => some s
  | a :: rest =>
      match semStep s a with
      | none => none
      | some s2 => semRun s2 rest

/-- Initial state: `max_concurrent` free tokens, `k` calls waiting. -/
def semInit (max_concurrent k : Nat) : SemState :=
  ⟨max_concurrent, List.replicate k 0⟩

/-- Whether a call at this program counter holds an admission token. -/
def isHolder (pc : SemPc) : Bool := pc == 1 || pc == 2

/-- Whether a call at this program counter has a spawned, running
process. -/
def isExec (pc : SemPc) : Bool := pc == 2

/-- Number of calls whose process is currently spawned and running. -/
def countExecuting (s : SemState) : Nat :=
  s.pcs.countP isExec

/-- Number of calls currently holding an admission token. -/
def countHolding (s : SemState) : Nat :=
  s.pcs.countP isHolder

/-- The semaphore accounting invariant: free tokens plus held tokens
equal `max_concurrent`. -/
def semInv (max_concurrent : Nat) (s : SemState) : Prop :=
  s.tokens + countHolding s = max_concurrent

/-! ### The running-process registry (`src/utils/atomic_ops.py`,
lines 128-132, 162-164 and 171-179)

Tracked per spawned process: lines 129-132 insert the process under a
fresh id before the stream readers start (line 153); lines 162-164
delete it after the process exits, guarded by a membership test; and
`stop_all_processes` (lines 171-179) clears the whole registry at any
point.  The trace model below follows one process's registry entry
through an arbitrary interleaving of its own run with `stop_all_processes`
calls. -/

/-- Registry-relevant events: the run's own registration (lines
129-132), one stream read (inside the `read_stream` coroutines), the
guarded deletion after `process.wait()` (lines 162-164), or a concurrent
`stop_all_processes` call (lines 171-179). -/
inductive RegEvent where
  | register
  | readLine
  | tryDelete
  | stopAll
deriving DecidableEq

/-- State of one process's registry entry: whether its id is currently
in `running_processes`, and how many times it has been removed. -/
structure RegState where
  registered : Bool
  removals : Nat

/-- Effect of one event on the entry.  `register` inserts it;
`tryDelete` removes it only if still present (the `if process_id in
self.running_processes` guard); `stopAll` clears the registry, removing
the entry when present; reads do not touch the registry. -/
def regStep (s : RegState) : RegEvent → RegState
  | .register => { s with registered := true }
  | .readLine => s
  | .tryDelete =>
      if s.registered then { registered := false, removals := s.removals + 1 }
      else s
  | .stopAll =>
      if s.registered then { registered := false, removals := s.removals + 1 }
      else s

/-- Fold a trace of events over the entry state. -/
def regRun (s : RegState) (trace : List RegEvent) : RegState :=
  trace.foldl regStep s

/-- The registry events of one normal `run_command_async` execution in
program order: register first (lines 129-132), then the stream reads
(lines 153-156), then the guarded delete (lines 162-164). -/
def runRegEvents (reads : Nat) : List RegEvent :=
  [RegEvent.register] ++ List.replicate reads RegEvent.readLine ++
    [RegEvent.tryDelete]

/-- The registry events belonging to the run itself (everything except
concurrent `stop_all_processes` calls). -/
def isRunEvent (e : RegEvent) : Bool :=
  match e with
  | .stopAll => false
  | _ => true

/-! ### Concrete instances used by the settled claims -/

/-- Modelled from the spec: the OS-level behaviour of `sh -c "exit 7"`
(an external program, not part of this repository) — no output, exit
code 7. -/
def exitSevenBehavior : Except String ProcBehavior :=
  .ok { stdoutLines := [], stderrLines := [], exitCode := 7 }

/-- A filesystem whose `report.md` already holds `"OLD"`. -/
def fsOld : FS := fun q => if q = "report.md" then some "OLD" else none

/-- The status log after 200 insertions into an empty panel. -/
def logAfter200 : List String :=
  addStatusMessages [] (List.replicate 200 ("12:00:00", "scan step", "info"))

/-! ## Helper lemmas shared between claims -/

theorem fsSet_same (fs : FS) (p : String) (v : Option String) :
    fsSet fs p v p = v := by
  simp [fsSet]

theorem fsSet_other (fs : FS) (p q : String) (v : Option String) (h : q ≠ p) :
    fsSet fs p v q = fs q := by
  simp [fsSet, h]

theorem tempName_ne (p : String) : tempName p ≠ p := by
  intro h
  have hlen := congrArg String.length h
  simp only [tempName, String.length_append] at hlen
  have h1 : ".".length = 1 := rfl
  have h2 : ".tmp0".length = 5 := rfl
  omega

theorem atomic_write_fail_self (fs : FS) (p c fragment : String) :
    (atomic_write fs p c (.failBeforeRename fragment)).fs p = fs p :=
  fsSet_other _ _ _ _ (tempName_ne p).symm

theorem atomic_write_ok_self (fs : FS) (p c : String) :
    (atomic_write fs p c .ok).fs p = some c :=
  fsSet_same _ _ _

theorem addStatusMessages_eq (log : List String)
    (calls : List (String × String × String)) :
    addStatusMessages log calls =
      log ++ calls.map (fun c => formatStatusMessage c.1 c.2.1 c.2.2) := by
  induction calls generalizing log with
  | nil => simp [addStatusMessages]
  | cons c rest ih =>
    show addStatusMessages (add_status_message log c.1 c.2.1 c.2.2) rest = _
    rw [ih]
    simp [add_status_message]

theorem countFinish_append (l₁ l₂ : List UIEvent) :
    countFinish (l₁ ++ l₂) = countFinish l₁ + countFinish l₂ :=
  List.countP_append _ _ _

theorem countFinish_map_eq_zero (g : String → UIEvent)
    (h : ∀ s, g s ≠ UIEvent.commandFinish) (l : List String) :
    countFinish (l.map g) = 0 := by
  unfold countFinish
  rw [List.countP_map, List.countP_eq_zero]
  intro a _
  simp [Function.comp, h a]

/-! ## Theorems -/

/-! ### Claim C1 -/

/-- Claim C1: for every `AtomicFileWriter.atomic_write(path, content)`
call, if an error occurs before the final rename (temporary-file
creation, write, flush or fsync fails) then the pre-existing file at
`path` — or its absence — is unchanged and the error propagates to the
caller; once the rename succeeds, the file at `path` equals `content`
exactly. -/
theorem atomic_write_crash_safe :
    ∀ (fs : FS) (path content fragment : String),
      ((atomic_write fs path content (.failBeforeRename fragment)).err = true ∧
        (atomic_write fs path content (.failBeforeRename fragment)).fs path =
          fs path) ∧
      ((atomic_write fs path content .ok).err = false ∧
        (atomic_write fs path content .ok).fs path = some content) := by
  intro fs path content fragment
  exact ⟨⟨rfl, atomic_write_fail_self fs path content fragment⟩,
         rfl, atomic_write_ok_self fs path content⟩

/-! ### Claim C2

The claim fails on the code: `run_command_async` passes `text=True` to
`asyncio.create_subprocess_shell` (`atomic_ops.py` line 125), which the
event loop rejects with `ValueError("text must be False")` before any
process starts, so the `except` clause (lines 168-169) makes every call
— `"echo hi"` and `"exit 7"` included — return `("", "text must be
False", 1)`. -/

/-- Claim C2 (actual behaviour at the failing inputs): running
`"echo hi"` returns `("", "text must be False", 1)` — stdout does not
contain `"hi"` and the exit code is 1, not 0 — and `"exit 7"` returns
exit code 1, not 7.  The last conjunct shows the runner body would have
returned `("hi", "", 0)` had the spawn arguments been accepted. -/
theorem run_command_async_echo_hi_actual :
    run_command_async echoHiBehavior none = ("", "text must be False", 1) ∧
    run_command_async exitSevenBehavior none = ("", "text must be False", 1) ∧
    run_command_async_core echoHiBehavior none = ("hi", "", 0) := by
  refine ⟨rfl, rfl, ?_⟩
  decide

/-! ### Claim C5

The claim fails on the code: the `timeout` parameter accepted at
`atomic_ops.py` line 111 is never referenced in the body of
`run_command_async` — there is no `wait_for`, no termination and no
sentinel exit code; the result is identical for every timeout value, and
a process outliving the timeout keeps running with its real exit code
returned. -/

/-- Claim C5 (actual behaviour): the result of the `run_command_async`
body is the same for every supplied timeout, and on the (hypothetically
successful) spawn path the process's own exit code — not a sentinel — is
returned whatever the timeout. -/
theorem run_command_async_timeout_ignored :
    (∀ (spawn : Except String ProcBehavior) (t₁ t₂ : Option Nat),
      run_command_async_core spawn t₁ = run_command_async_core spawn t₂) ∧
    (∀ (p : ProcBehavior) (t : Option Nat),
      (run_command_async_core (.ok p) t).2.2 = p.exitCode) :=
  ⟨fun _ _ _ => rfl, fun _ _ => rfl⟩

/-! ### Claim C6

The claim fails on the code: above the threshold `streaming_write` opens
the target with `file_path.open("a", ...)` (`atomic_ops.py` line 87) —
append mode — so a pre-existing file keeps its old content and `content`
is appended after it; the file does not afterwards contain exactly
`content`.  (The at-or-below-threshold branch does replace the file via
`atomic_write`, which is what makes the `"a"` a slip.) -/

/-- Claim C6 (actual behaviour at the failing input): with threshold 4,
a file holding `"OLD"` and the five-character content `"HELLO"`, the
chunked branch leaves `"OLDHELLO"`, not `"HELLO"`; the
at-or-below-threshold branch does leave exactly the new content. -/
theorem streaming_write_appends_actual :
    streaming_write 4 fsOld "report.md" "HELLO" "report.md" = some "OLDHELLO" ∧
    ("OLDHELLO" : String) ≠ "HELLO" ∧
    streaming_write 8 fsOld "report.md" "HELLO" "report.md" = some "HELLO" := by
  refine ⟨?_, by decide, ?_⟩
  · show fsSet fsOld "report.md"
        (some (String.mk (writeChunks "OLD".data "HELLO".data))) "report.md" = _
    rw [fsSet_same]
    decide
  · show (atomic_write fsOld "report.md" "HELLO" .ok).fs "report.md" = some "HELLO"
    exact atomic_write_ok_self fsOld "report.md" "HELLO"

/-! ### Claim C9 -/

/-- Claim C9: whenever spawning the process raises an exception, the
`run_command_async` call returns exit code 1 with the exception text in
the stderr slot of the result tuple, and no exception reaches the
caller. -/
theorem run_command_async_spawn_error_reported :
    ∀ (osOutcome : Except String ProcBehavior) (e : String) (timeout : Option Nat),
      create_subprocess_shell true osOutcome = .error e →
      run_command_async osOutcome timeout = ("", e, 1) := by
  intro osOutcome e timeout h
  show run_command_async_core (create_subprocess_shell true osOutcome) timeout = _
  rw [h]
  rfl

/-- Witness for claim C9: the spawn of `"echo hi"` raises (the event
loop rejects `text=True`), and the call indeed returns the exception
text with exit code 1. -/
theorem run_command_async_spawn_error_reported_witness :
    run_command_async echoHiBehavior (some 60) = ("", "text must be False", 1) :=
  run_command_async_spawn_error_reported echoHiBehavior "text must be False"
    (some 60) rfl

/-! ### Claim C10

The claim fails on the code: `StatusPanel.add_status_message` (`tui.py`
line 96) extends the reactive list without any truncation, and no other
code evicts status messages — there is no 50-entry cap anywhere. -/

/-- Counterexample to claim C10: after 200 insertions into an empty
status log the log holds all 200 messages, not exactly the 50 most
recent ones. -/
theorem status_log_unbounded_counterexample :
    logAfter200.length = 200 ∧ logAfter200.length ≠ 50 := by
  have h : logAfter200.length = 200 := by
    show (addStatusMessages [] (List.replicate 200 _)).length = 200
    rw [addStatusMessages_eq, List.nil_append, List.length_map,
      List.length_replicate]
  exact ⟨h, by rw [h]; omega⟩

/-- Claim C10 as amended: the status-message log is unbounded — any
sequence of insertions via `add_status_message` retains every previously
held message and appends the new formatted messages in insertion order;
nothing is evicted. -/
theorem add_status_message_no_eviction :
    ∀ (log : List String) (calls : List (String × String × String)),
      addStatusMessages log calls =
        log ++ calls.map (fun c => formatStatusMessage c.1 c.2.1 c.2.2) :=
  addStatusMessages_eq

/-! ### Claim C7

The claim fails on the code: the `except` clause of
`ThreadSafeTUIWrapper.run_command_live` (`tui.py` lines 650-657)
schedules an error status message but no command-finished event, so a
call whose `subprocess.Popen` raises schedules zero finish events, not
one. -/

/-- Counterexample to claim C7: a `run_command_live` call with a running
UI loop whose spawn raises (for example a missing working directory)
does not schedule exactly one command-finished event — it schedules
none. -/
theorem bridge_finish_event_missing_on_exception :
    ¬ countFinish (run_command_live true "nmap -sV target"
        (.error "[Errno 2] No such file or directory: '/missing'")
        false).events = 1 := by
  decide

/-- Claim C7 as amended: when a running UI loop has been resolved,
exactly one command-finished event is scheduled per `run_command_live`
call on the normal path and on the timeout path; on the exception path
none is scheduled (an error status message is scheduled instead). -/
theorem bridge_finish_event_normal_and_timeout :
    ∀ (command : String) (p : ProcBehavior) (timedOut : Bool),
      countFinish (run_command_live true command (.ok p) timedOut).events = 1 ∧
      ∀ e : String,
        countFinish (run_command_live true command (.error e) timedOut).events
          = 0 := by
  intro command p timedOut
  constructor
  · show countFinish ([UIEvent.commandStart command] ++
      ((read_stream p.stdoutLines).map UIEvent.commandOutput ++
        (read_stream p.stderrLines).map (fun l =>
          UIEvent.commandOutput ("[red]ERROR: " ++ l ++ "[/red]"))) ++
      [UIEvent.commandFinish]) = 1
    rw [countFinish_append, countFinish_append, countFinish_append,
      countFinish_map_eq_zero _ (fun s => by simp),
      countFinish_map_eq_zero _ (fun s => by simp)]
    rfl
  · intro e
    rfl

/-! ### Claim C3 -/

/-- Replacing one element of a list shifts `countP` by the predicate's
value at the old and new elements. -/
theorem countP_set_of_getElem (l : List SemPc) (i : Nat) (a b : SemPc)
    (p : SemPc → Bool) (h : l[i]? = some a) :
    (l.set i b).countP p + (if p a then 1 else 0) =
      l.countP p + (if p b then 1 else 0) := by
  induction l generalizing i with
  | nil => simp at h
  | cons x xs ih =>
    cases i with
    | zero =>
      simp only [List.getElem?_cons_zero, Option.some_inj] at h
      subst h
      simp only [List.set_cons_zero, List.countP_cons]
      omega
    | succ n =>
      simp only [List.getElem?_cons_succ] at h
      have hrec := ih n h
      simp only [List.set_cons_succ, List.countP_cons]
      omega

theorem countP_imp_le (l : List SemPc) (p q : SemPc → Bool)
    (h : ∀ x, p x = true → q x = true) : l.countP p ≤ l.countP q := by
  induction l with
  | nil => simp
  | cons x xs ih =>
    simp only [List.countP_cons]
    have h1 : (if p x then 1 else 0) ≤ (if q x then 1 else 0) := by
      by_cases hx : p x = true
      · rw [if_pos hx, if_pos (h x hx)]
      · rw [if_neg hx]
        exact Nat.zero_le _
    omega

theorem semStep_inv {N : Nat} {s s' : SemState} {a : SemAction}
    (hstep : semStep s a = some s') (hinv : semInv N s) : semInv N s' := by
  cases a with
  | acquire i =>
    simp only [semStep] at hstep
    split at hstep
    · rename_i hpc
      split at hstep
      · exact absurd hstep (by simp)
      · rename_i htok
        cases hstep
        have hc := countP_set_of_getElem s.pcs i 0 1 isHolder hpc
        have e0 : (if isHolder 0 then 1 else 0) = 0 := by decide
        have e1 : (if isHolder 1 then 1 else 0) = 1 := by decide
        rw [e0, e1] at hc
        show s.tokens - 1 + (s.pcs.set i 1).countP isHolder = N
        have hiv : s.tokens + s.pcs.countP isHolder = N := hinv
        omega
    · exact absurd hstep (by simp)
  | spawn i =>
    simp only [semStep] at hstep
    split at hstep
    · rename_i hpc
      cases hstep
      have hc := countP_set_of_getElem s.pcs i 1 2 isHolder hpc
      have e1 : (if isHolder 1 then 1 else 0) = 1 := by decide
      have e2 : (if isHolder 2 then 1 else 0) = 1 := by decide
      rw [e1, e2] at hc
      show s.tokens + (s.pcs.set i 2).countP isHolder = N
      have hiv : s.tokens + s.pcs.countP isHolder = N := hinv
      omega
    · exact absurd hstep (by simp)
  | complete i =>
    simp only [semStep] at hstep
    split at hstep
    · rename_i hpc
      cases hstep
      have hc := countP_set_of_getElem s.pcs i 2 3 isHolder hpc
      have e2 : (if isHolder 2 then 1 else 0) = 1 := by decide
      have e3 : (if isHolder 3 then 1 else 0) = 0 := by decide
      rw [e2, e3] at hc
      show s.tokens + 1 + (s.pcs.set i 3).countP isHolder = N
      have hiv : s.tokens + s.pcs.countP isHolder = N := hinv
      omega
    · exact absurd hstep (by simp)

theorem semRun_inv {N : Nat} :
    ∀ (acts : List SemAction) (s s' : SemState),
      semInv N s → semRun s acts = some s' → semInv N s' := by
  intro acts
  induction acts with
  | nil =>
    intro s s' hinv hrun
    cases hrun
    exact hinv
  | cons a rest ih =>
    intro s s' hinv hrun
    unfold semRun at hrun
    cases hstep : semStep s a with
    | none => rw [hstep] at hrun; exact absurd hrun (by simp)
    | some s2 =>
      rw [hstep] at hrun
      exact ih s2 s' (semStep_inv hstep hinv) hrun

theorem semInit_inv (N k : Nat) : semInv N (semInit N k) := by
  show N + (List.replicate k 0).countP isHolder = N
  have h0 : (List.replicate k 0).countP isHolder = 0 := by
    rw [List.countP_eq_zero]
    intro a ha
    have := List.eq_of_mem_replicate ha
    subst this
    decide
  omega

/-- Claim C3: at every reachable moment of the admission system, at most
`max_concurrent` commands (default 8, the constructor default of
`AsyncCommandRunner`) are executing: a token must be taken from the
counting semaphore before the process is spawned and is returned when
the call completes, and an `acquire` step is disabled — the caller
blocks — while no token is free. -/
theorem runner_concurrency_bounded :
    (∀ (N k : Nat) (acts : List SemAction) (s : SemState),
        semRun (semInit N k) acts = some s → countExecuting s ≤ N) ∧
    default_max_concurrent = 8 ∧
    (∀ (s : SemState) (i : Nat), s.tokens = 0 →
        semStep s (.acquire i) = none) := by
  refine ⟨?_, rfl, ?_⟩
  · intro N k acts s hrun
    have hinv := semRun_inv acts (semInit N k) s (semInit_inv N k) hrun
    have hle : s.pcs.countP isExec ≤ s.pcs.countP isHolder := by
      apply countP_imp_le
      intro x hx
      have hx2 : x = 2 := by simpa [isExec] using hx
      subst hx2
      decide
    have hiv : s.tokens + s.pcs.countP isHolder = N := hinv
    show s.pcs.countP isExec ≤ N
    omega
  · intro s i ht
    simp only [semStep]
    split
    · rw [if_pos ht]
    · rfl

/-- Witness for claim C3: a concrete run with two tokens and three
calls, two of which have spawned their processes, stays within the
bound. -/
theorem runner_concurrency_bounded_witness :
    countExecuting ⟨0, [2, 2, 0]⟩ ≤ 2 :=
  runner_concurrency_bounded.1 2 3
    [.acquire 0, .spawn 0, .acquire 1, .spawn 1] ⟨0, [2, 2, 0]⟩ rfl

/-! ### Claim C8 -/

theorem regRun_removed_noop :
    ∀ (trace : List RegEvent), RegEvent.register ∉ trace →
      regRun ⟨false, 1⟩ trace = ⟨false, 1⟩ := by
  intro trace
  induction trace with
  | nil => intro _; rfl
  | cons e rest ih =>
    intro hmem
    have hne : e ≠ RegEvent.register := fun h => hmem (h ▸ List.mem_cons_self e rest)
    have hrest : RegEvent.register ∉ rest := fun h => hmem (List.mem_cons_of_mem e h)
    show regRun (regStep ⟨false, 1⟩ e) rest = ⟨false, 1⟩
    cases e with
    | register => exact absurd rfl hne
    | readLine => exact ih hrest
    | tryDelete => exact ih hrest
    | stopAll => exact ih hrest

theorem register_not_mem_of_filter (trace : List RegEvent) (reads : Nat)
    (h : trace.filter isRunEvent = List.replicate reads RegEvent.readLine ++
      [RegEvent.tryDelete]) : RegEvent.register ∉ trace := by
  intro hmem
  have hfil : RegEvent.register ∈ trace.filter isRunEvent :=
    List.mem_filter.2 ⟨hmem, rfl⟩
  rw [h] at hfil
  rcases List.mem_append.1 hfil with h1 | h1
  · exact absurd (List.eq_of_mem_replicate h1) (by simp)
  · simp at h1

theorem regRun_critical :
    ∀ (trace : List RegEvent) (reads : Nat),
      trace.filter isRunEvent =
        List.replicate reads RegEvent.readLine ++ [RegEvent.tryDelete] →
      regRun ⟨true, 0⟩ trace = ⟨false, 1⟩ := by
  intro trace
  induction trace with
  | nil =>
    intro reads h
    have := congrArg List.length h
    simp at this
  | cons e rest ih =>
    intro reads h
    show regRun (regStep ⟨true, 0⟩ e) rest = ⟨false, 1⟩
    cases e with
    | register =>
      rw [List.filter_cons_of_pos (by rfl)] at h
      cases reads with
      | zero => simp at h
      | succ n => rw [List.replicate_succ] at h; simp at h
    | readLine =>
      rw [List.filter_cons_of_pos (by rfl)] at h
      cases reads with
      | zero => simp at h
      | succ n =>
        rw [List.replicate_succ] at h
        simp only [List.cons_append, List.cons.injEq] at h
        exact ih n h.2
    | tryDelete =>
      rw [List.filter_cons_of_pos (by rfl)] at h
      cases reads with
      | zero =>
        simp only [List.replicate, List.nil_append, List.cons.injEq] at h
        exact regRun_removed_noop rest (by
          intro hmem
          have hfil : RegEvent.register ∈ rest.filter isRunEvent :=
            List.mem_filter.2 ⟨hmem, rfl⟩
          rw [h.2] at hfil
          simp at hfil)
      | succ n => rw [List.replicate_succ] at h; simp at h
    | stopAll =>
      rw [List.filter_cons_of_neg (by simp [isRunEvent])] at h
      exact regRun_removed_noop rest (register_not_mem_of_filter rest reads h)

theorem regRun_full :
    ∀ (trace : List RegEvent) (reads : Nat),
      trace.filter isRunEvent = runRegEvents reads →
      regRun ⟨false, 0⟩ trace = ⟨false, 1⟩ := by
  intro trace
  induction trace with
  | nil =>
    intro reads h
    have := congrArg List.length h
    simp [runRegEvents] at this
  | cons e rest ih =>
    intro reads h
    show regRun (regStep ⟨false, 0⟩ e) rest = ⟨false, 1⟩
    cases e with
    | register =>
      rw [List.filter_cons_of_pos (by rfl)] at h
      simp only [runRegEvents, List.cons_append, List.singleton_append,
        List.cons.injEq] at h
      exact regRun_critical rest reads h.2
    | readLine =>
      rw [List.filter_cons_of_pos (by rfl)] at h
      simp [runRegEvents] at h
    | tryDelete =>
      rw [List.filter_cons_of_pos (by rfl)] at h
      simp [runRegEvents] at h
    | stopAll =>
      rw [List.filter_cons_of_neg (by simp [isRunEvent])] at h
      exact ih reads h

/-- Claim C8: the registry events of a `run_command_async` execution
place the registration strictly before every stream read; and in any
interleaving of one run with concurrent `stop_all_processes` calls the
process's registry entry is removed exactly once — by the guarded delete
on normal exit or by a `stop_all_processes` clear — and does not outlive
the run. -/
theorem registry_register_first_remove_once :
    (∀ reads : Nat, (runRegEvents reads)[0]? = some RegEvent.register ∧
      ∀ i : Nat, (runRegEvents reads)[i]? = some RegEvent.readLine → 0 < i) ∧
    (∀ (trace : List RegEvent) (reads : Nat),
      trace.filter isRunEvent = runRegEvents reads →
      (regRun ⟨false, 0⟩ trace).removals = 1 ∧
      (regRun ⟨false, 0⟩ trace).registered = false) := by
  constructor
  · intro reads
    constructor
    · simp [runRegEvents]
    · intro i hi
      cases i with
      | zero => simp [runRegEvents] at hi
      | succ n => exact Nat.succ_pos n
  · intro trace reads h
    rw [regRun_full trace reads h]
    exact ⟨rfl, rfl⟩

/-- Witness for claim C8: a run with one stream read, interrupted by a
`stop_all_processes` between the read and the run's own guarded delete;
the entry is removed exactly once (by the clear — the guarded delete
then finds it absent). -/
theorem registry_register_first_remove_once_witness :
    (regRun ⟨false, 0⟩ [RegEvent.register, RegEvent.readLine,
      RegEvent.stopAll, RegEvent.tryDelete]).removals = 1 :=
  (registry_register_first_remove_once.2
    [RegEvent.register, RegEvent.readLine, RegEvent.stopAll,
      RegEvent.tryDelete] 1 rfl).1

/-! ### Claim C4

The claim fails on the code: `atomic_append` takes the path's
`threading.Lock` (`atomic_ops.py` line 59) and then calls
`atomic_write`, which re-acquires the same lock (line 37) — `_get_lock`
keys its dictionary by equal `Path` objects, so both acquisitions reach
the same lock object, and `threading.Lock` is not reentrant.  The
thread blocks on itself: every `atomic_append` call deadlocks after
reading the existing content, the write is never reached, and the file
keeps its old content.  The combined content of lines 69-71 — exactly
what the claim describes, newline handling included — is never
written. -/

/-- Claim C4 (actual behaviour): one `atomic_append` call, started with
the path's lock free, acquires the lock and reads the old content
(steps 1-2), is then permanently blocked on `atomic_write`'s nested
acquisition of the same non-reentrant lock with the file unchanged, and
no run of three or more steps exists — the write at program counter 3
is unreachable and the call never completes. -/
theorem atomic_append_deadlocks :
    ∀ (old : Option String) (content : String),
      atomic_append_run content (atomic_append_init old) 1 =
        some { file := old, locked := true, pc := 1, readVal := "" } ∧
      atomic_append_run content (atomic_append_init old) 2 =
        some { file := old, locked := true, pc := 2, readVal := old.getD "" } ∧
      atomic_append_step content
        { file := old, locked := true, pc := 2, readVal := old.getD "" } =
          none ∧
      ∀ n : Nat,
        atomic_append_run content (atomic_append_init old) (n + 3) = none := by
  intro old content
  refine ⟨rfl, rfl, rfl, ?_⟩
  intro n
  simp [atomic_append_run, atomic_append_step, atomic_append_init]

end DeepDomain
